import Mathlib

/-!
Shallow embedding of the scrum-bot source (`app.py`): configuration
loading/reload, schedule resolution, the answer ledger, the two scheduled
jobs, inbound private-text handling and the admin configuration commands.
Python dicts are modelled as association lists that preserve insertion
order (as CPython dicts do); calendar dates are modelled by their total
order as days since a fixed Monday; a JSON date string is modelled by its
parse outcome (`DateStr`).
-/

namespace ScrumBot

/-- A calendar date, abstracted to days since a fixed Monday (the code only
compares dates and takes `isoweekday`). -/
abbrev Date := Nat

/-- `datetime.isoweekday`: 1 = Monday .. 7 = Sunday. -/
def weekday (d : Date) : Int := Int.ofNat (d % 7) + 1

/-- A JSON value standing where a `YYYY-MM-DD` string is expected: the raw
text together with the outcome of `_parse_date` on it (`none` = the Python
call raises). -/
structure DateStr where
  str : String
  parsed : Option Date
deriving DecidableEq, Repr

/-- One entry of a member's vacation list in the JSON document; the code
indexes it at 0 and 1, so a too-short list models a wrong-shape entry. -/
abbrev VacRange := List DateStr

abbrev VacMap := List (String × List VacRange)

abbrev Schedule := List (String × List Int)

/-- The answer ledger: `{ "YYYY-MM-DD": { name: text } }`. -/
abbrev Ledger := List (String × List (String × String))

/-- Python `dict.get(k)`: first entry with the key (dict keys are unique;
insertion order is the list order). -/
def alookup {α β : Type} [DecidableEq α] : List (α × β) → α → Option β
  | [], _ => none
  | (k', v) :: rest, k => if k' = k then some v else alookup rest k

/-- Python `dict[k] = v`: replace in place when the key is present,
append at the end otherwise. -/
def upsert {α β : Type} [DecidableEq α] : List (α × β) → α → β → List (α × β)
  | [], k, v => [(k, v)]
  | (k', v') :: rest, k, v =>
      if k' = k then (k', v) :: rest else (k', v') :: upsert rest k v

/-- Python `dict.setdefault(k, v)` when only used for its insertion side
effect: keep the list when the key is present, append `(k, v)` otherwise. -/
def setdefaultA {α β : Type} [DecidableEq α] (l : List (α × β)) (k : α) (v : β) :
    List (α × β) :=
  if (l.map Prod.fst).contains k then l else l ++ [(k, v)]

theorem alookup_upsert_self {α β : Type} [DecidableEq α]
    (l : List (α × β)) (k : α) (v : β) : alookup (upsert l k v) k = some v := by
  induction l with
  | nil => simp [upsert, alookup]
  | cons hd tl ih =>
      obtain ⟨k', v'⟩ := hd
      by_cases h : k' = k
      · simp [upsert, h, alookup]
      · simp [upsert, h, alookup, ih]

theorem alookup_upsert_ne {α β : Type} [DecidableEq α]
    (l : List (α × β)) (k k' : α) (v : β) (hne : k' ≠ k) :
    alookup (upsert l k v) k' = alookup l k' := by
  induction l with
  | nil => simp [upsert, alookup, Ne.symm hne]
  | cons hd tl ih =>
      obtain ⟨k₀, v₀⟩ := hd
      by_cases h : k₀ = k
      · subst h
        simp [upsert, alookup, Ne.symm hne]
      · simp [upsert, h, alookup, ih]

theorem upsert_upsert {α β : Type} [DecidableEq α]
    (l : List (α × β)) (k : α) (v v' : β) :
    upsert (upsert l k v) k v' = upsert l k v' := by
  induction l with
  | nil => simp [upsert]
  | cons hd tl ih =>
      obtain ⟨k₀, v₀⟩ := hd
      by_cases h : k₀ = k
      · simp [upsert, h]
      · simp [upsert, h, ih]

theorem keys_upsert {α β : Type} [DecidableEq α]
    (l : List (α × β)) (k : α) (v : β) :
    (upsert l k v).map Prod.fst =
      if k ∈ l.map Prod.fst then l.map Prod.fst else l.map Prod.fst ++ [k] := by
  induction l with
  | nil => simp [upsert]
  | cons hd tl ih =>
      obtain ⟨k₀, v₀⟩ := hd
      by_cases h : k₀ = k
      · subst h
        simp [upsert]
      · have h' : ¬ (k = k₀) := fun hk => h hk.symm
        by_cases hmem : k ∈ tl.map Prod.fst
        · simp [upsert, h, ih, hmem, h']
        · simp [upsert, h, ih, hmem, h']

theorem alookup_mem {α β : Type} [DecidableEq α]
    (l : List (α × β)) (k : α) (v : β) (h : alookup l k = some v) : (k, v) ∈ l := by
  induction l with
  | nil => simp [alookup] at h
  | cons hd tl ih =>
      obtain ⟨k₀, v₀⟩ := hd
      by_cases hk : k₀ = k
      · subst hk
        simp [alookup] at h
        simp [h]
      · simp [alookup, hk] at h
        exact List.mem_cons_of_mem _ (ih h)

theorem mem_alookup_of_nodup {α β : Type} [DecidableEq α]
    (l : List (α × β)) (k : α) (v : β)
    (hnd : (l.map Prod.fst).Nodup) (h : (k, v) ∈ l) : alookup l k = some v := by
  induction l with
  | nil => simp at h
  | cons hd tl ih =>
      obtain ⟨k₀, v₀⟩ := hd
      rw [List.map_cons, List.nodup_cons] at hnd
      rcases List.mem_cons.mp h with heq | htl
      · injection heq with hk hv
        subst hk
        subst hv
        simp [alookup]
      · have hk : k₀ ≠ k := by
          intro hke
          subst hke
          exact hnd.1 (List.mem_map.mpr ⟨(k₀, v), htl, rfl⟩)
        simp [alookup, hk]
        exact ih hnd.2 htl

/-- The loop body of `is_on_vacation`: both entries of the range are
present and parseable and `start ≤ d ≤ end`; a range whose indexing or
parsing raises is treated as non-matching. -/
def vacRangeHit (rng : VacRange) (d : Date) : Bool :=
  match rng.get? 0 with
  | none => false
  | some r0 =>
      match r0.parsed with
      | none => false
      | some s =>
          match rng.get? 1 with
          | none => false
          | some r1 =>
              match r1.parsed with
              | none => false
              | some e => decide (s ≤ d) && decide (d ≤ e)

/-- `is_on_vacation`: some recorded range for `name` matches `d`. -/
def is_on_vacation (vac : VacMap) (name : String) (d : Date) : Bool :=
  ((alookup vac name).getD []).any fun rng => vacRangeHit rng d

/-- `get_remote_today`, with the ambient "today" passed explicitly:
members of `WEEKLY_SCHEDULE` whose day set contains today's weekday and
who are not on vacation. -/
def get_remote_today (ws : Schedule) (vac : VacMap) (d : Date) : List String :=
  (ws.filter fun p => decide (weekday d ∈ p.2) && ! is_on_vacation vac p.1 d).map
    Prod.fst

/-- Python `"%02d" % n` for the hour/minute fields. -/
def pad2 (n : Int) : String :=
  if 0 ≤ n ∧ n < 10 then "0" ++ toString n else toString n

/-- Python `repr` of a list of ints, as interpolated by `f"... {days}"`. -/
def listRepr (days : List Int) : String :=
  "[" ++ String.intercalate ", " (days.map toString) ++ "]"

/-- `make_scrum_prompt`, with the ambient summary time passed explicitly. -/
def make_scrum_prompt (sh sm : Int) : String :=
  "Salam! Bu gün remote-san. Xahiş edirəm bu 3 suala qısa cavab yaz:\n" ++
  "1) Dünən nə etdin?\n" ++
  "2) Bu gün nə edəcəksən?\n" ++
  "3) Bloklayan problem varmı?\n" ++
  "Qeyd: Cavabınızı saat " ++ pad2 sh ++ ":" ++ pad2 sm ++ "-a kimi göndərin."

def sentChannelMsg (sent : List String) : String :=
  "🕘 Remote olanlara scrum sorğusu göndərildi: " ++ String.intercalate ", " sent

def emptyChannelMsg : String :=
  "🕘 Bu gün remote siyahısı boşdur (scrum sorğusu göndərilmədi)."

def liveChannelMsg (liveAt : String) (nonRemote : List String) : String :=
  "📣 Remote olmayanlar üçün " ++ liveAt ++ "-də live scrum: " ++
    String.intercalate ", " nonRemote

def summaryChannelMsg (today : String) (day : List (String × String)) : String :=
  String.intercalate "\n"
    (("📋 " ++ today ++ " — Scrum cavabları:") ::
      day.map fun p => "• " ++ p.1 ++ ": " ++ p.2)

def noAnswersMsg (today : String) : String :=
  "📋 " ++ today ++ " üçün cavab yoxdur."

def registerFirstMsg : String :=
  "Zəhmət olmasa əvvəlcə /register <Ad> ilə qeydiyyatdan keç."

def ackRemoteMsg : String := "Təşəkkürlər! Cavabını qeyd etdim. ✅"

def ackOfficeMsg : String :=
  "Qeyd edildi. (Qeyd: bu gün remote siyahısında deyilsən.)"

def memberNotFoundMsg (raw : String) : String :=
  "\x27" ++ raw ++ "\x27 TEAM-də tapılmadı."

def teamAlreadyMsg (name : String) : String :=
  "\x27" ++ name ++ "\x27 artıq TEAM-də var."

def teamAddOkMsg (name : String) : String :=
  "✅ \x27" ++ name ++ "\x27 TEAM-ə əlavə edildi."

def vacAddOkMsg (name a b : String) : String :=
  "✅ " ++ name ++ ": " ++ a ++ " → " ++ b ++ " əlavə edildi."

def vacRmOkMsg (name a b : String) : String :=
  "✅ " ++ name ++ ": " ++ a ++ " → " ++ b ++ " silindi."

def schedRangeMsg : String := "Günlər 1..7 aralığında olmalıdır. Misal: 1,3,5"

def schedSetOkMsg (name : String) (days : List Int) : String :=
  "✅ " ++ name ++ " üçün günlər təyin edildi: " ++ listRepr days

def timeSetUsageMsg : String :=
  "İstifadə: /time_set prompt HH:MM  və ya  /time_set summary HH:MM"

def timeSetOkMsg (which : String) (hh mm : Int) : String :=
  "✅ " ++ which ++ " vaxtı " ++ pad2 hh ++ ":" ++ pad2 mm ++
    " saxlandı.\n💡 /cfg_reload yaz ki, dərhal tətbiq olsun."

/-- The answer ledger write in `handle_private_text`:
`answers.setdefault(today, {}); answers[today][name] = text`. -/
def record (answers : Ledger) (today name text : String) : Ledger :=
  upsert answers today (upsert ((alookup answers today).getD []) name text)

/-- Members of the day's entry in ledger (insertion) order. -/
def dayMembers (answers : Ledger) (d : String) : List String :=
  ((alookup answers d).getD []).map Prod.fst

/-- A ledger built from a sequence of `(date, member, text)` writes starting
from the empty store. -/
def replay (ops : List (String × String × String)) : Ledger :=
  ops.foldl (fun L o => record L o.1 o.2.1 o.2.2) []

/-- `next((k for k, v in users.items() if v == message.chat.id), None)`. -/
def resolveUser (users : List (String × Int)) (chatId : Int) : Option String :=
  (users.find? fun p => decide (p.2 = chatId)).map Prod.fst

/-- `handle_private_text`: replies sent to the sender and the resulting
ledger, with the ambient schedule, date and user registry passed
explicitly. -/
def handle_private_text (users : List (String × Int)) (chatId : Int)
    (text : String) (ws : Schedule) (vac : VacMap) (d : Date)
    (answers : Ledger) (today : String) : List String × Ledger :=
  match resolveUser users chatId with
  | none => ([registerFirstMsg], answers)
  | some name =>
      ([if name ∈ get_remote_today ws vac d then ackRemoteMsg else ackOfficeMsg],
        record answers today name text.trim)

/-- The per-member DM loop of `job_send_prompts`: returns the direct
messages actually attempted (`bot.send_message(chat_id, prompt)` calls) and
the `sent` list (members whose send did not raise). `sendOk` models the
transport outcome per chat id. -/
def promptLoop (users : List (String × Int)) (sendOk : Int → Bool)
    (prompt : String) : List String → List (Int × String) × List String
  | [] => ([], [])
  | name :: rest =>
      let tail := promptLoop users sendOk prompt rest
      match alookup users name with
      | none => tail
      | some cid =>
          if cid ≠ 0 then
            if sendOk cid then ((cid, prompt) :: tail.1, name :: tail.2)
            else ((cid, prompt) :: tail.1, tail.2)
          else tail

/-- `active_team = [m for m in TEAM if not is_on_vacation(m)]`. -/
def active_team (TEAM : List String) (vac : VacMap) (d : Date) : List String :=
  TEAM.filter fun m => ! is_on_vacation vac m d

/-- `remote_today = [m for m in get_remote_today() if m in active_team]`. -/
def remote_today_list (TEAM : List String) (ws : Schedule) (vac : VacMap)
    (d : Date) : List String :=
  (get_remote_today ws vac d).filter fun m => decide (m ∈ active_team TEAM vac d)

/-- `non_remote = [m for m in active_team if m not in remote_today]`. -/
def non_remote_list (TEAM : List String) (ws : Schedule) (vac : VacMap)
    (d : Date) : List String :=
  (active_team TEAM vac d).filter fun m =>
    ! decide (m ∈ remote_today_list TEAM ws vac d)

/-- `job_send_prompts`: the attempted direct messages and the list of
channel messages, with all globals passed explicitly. -/
def job_send_prompts (TEAM : List String) (ws : Schedule) (vac : VacMap)
    (users : List (String × Int)) (d : Date) (GROUP_CHAT_ID : Int)
    (LIVE_SCRUM_AT : String) (sh sm : Int) (sendOk : Int → Bool) :
    List (Int × String) × List String :=
  let r := promptLoop users sendOk (make_scrum_prompt sh sm)
    (remote_today_list TEAM ws vac d)
  let channel :=
    if GROUP_CHAT_ID ≠ 0 then
      (if r.2 ≠ [] then sentChannelMsg r.2 else emptyChannelMsg) ::
        (if non_remote_list TEAM ws vac d ≠ [] then
          [liveChannelMsg LIVE_SCRUM_AT (non_remote_list TEAM ws vac d)]
         else [])
    else []
  (r.1, channel)

/-- `job_post_summary`: the list of channel messages it sends. -/
def job_post_summary (answers : Ledger) (today : String)
    (GROUP_CHAT_ID : Int) : List String :=
  let day_answers := (alookup answers today).getD []
  if GROUP_CHAT_ID ≠ 0 then
    if day_answers ≠ [] then [summaryChannelMsg today day_answers]
    else [noAnswersMsg today]
  else []

/-- The in-memory configuration globals. -/
structure ConfigState where
  TEAM : List String
  WEEKLY_SCHEDULE : Schedule
  VACATIONS : VacMap
  PROMPT_HOUR : Int
  PROMPT_MINUTE : Int
  SUMMARY_HOUR : Int
  SUMMARY_MINUTE : Int
  LIVE_SCRUM_AT : String
deriving DecidableEq

/-- A parsed `config.json` document: each field is `none` when the key is
absent (so that subscripting it raises `KeyError`). -/
structure RawDoc where
  TEAM : Option (List String)
  WEEKLY_SCHEDULE : Option Schedule
  VACITIONS : Option VacMap
  VACATIONS : Option VacMap
  PROMPT_HOUR : Option Int
  PROMPT_MINUTE : Option Int
  SUMMARY_HOUR : Option Int
  SUMMARY_MINUTE : Option Int
  LIVE_SCRUM_AT : Option String
deriving DecidableEq

/-- `CONFIG.get("VACITIONS", CONFIG.get("VACATIONS", \x7b\x7d))`. -/
def loadVacations (doc : RawDoc) : VacMap :=
  match doc.VACITIONS with
  | some v => v
  | none => doc.VACATIONS.getD []

/-- The full in-memory configuration derived from a document that has every
required key (the startup load, which dies otherwise). -/
def configOf (doc : RawDoc) : Option ConfigState :=
  match doc.TEAM, doc.WEEKLY_SCHEDULE, doc.PROMPT_HOUR, doc.PROMPT_MINUTE,
      doc.SUMMARY_HOUR, doc.SUMMARY_MINUTE, doc.LIVE_SCRUM_AT with
  | some team, some ws, some ph, some pm, some sh, some sm, some ls =>
      some ⟨team, ws, loadVacations doc, ph, pm, sh, sm, ls⟩
  | _, _, _, _, _, _, _ => none

/-- `cmd_cfg_reload`: `loaded = none` models `_load_config_or_die` raising
(missing file or malformed JSON). The globals are reassigned one by one in
source order inside the `try`, so a `KeyError` at a later key leaves the
keys read before it already swapped; the `Bool` is true iff the ✅ reply
(rather than the ❌ reply) is sent. -/
def cmd_cfg_reload (old : ConfigState) (loaded : Option RawDoc) :
    ConfigState × Bool :=
  match loaded with
  | none => (old, false)
  | some doc =>
    match doc.TEAM with
    | none => (old, false)
    | some team =>
      match doc.WEEKLY_SCHEDULE with
      | none => ({ old with TEAM := team }, false)
      | some ws =>
        let vac := loadVacations doc
        match doc.PROMPT_HOUR with
        | none =>
            ({ old with
                TEAM := team
                WEEKLY_SCHEDULE := ws
                VACATIONS := vac }, false)
        | some ph =>
          match doc.PROMPT_MINUTE with
          | none =>
              ({ old with
                  TEAM := team
                  WEEKLY_SCHEDULE := ws
                  VACATIONS := vac
                  PROMPT_HOUR := ph }, false)
          | some pm =>
            match doc.SUMMARY_HOUR with
            | none =>
                ({ old with
                    TEAM := team
                    WEEKLY_SCHEDULE := ws
                    VACATIONS := vac
                    PROMPT_HOUR := ph
                    PROMPT_MINUTE := pm }, false)
            | some sh =>
              match doc.SUMMARY_MINUTE with
              | none =>
                  ({ old with
                      TEAM := team
                      WEEKLY_SCHEDULE := ws
                      VACATIONS := vac
                      PROMPT_HOUR := ph
                      PROMPT_MINUTE := pm
                      SUMMARY_HOUR := sh }, false)
              | some sm =>
                match doc.LIVE_SCRUM_AT with
                | none =>
                    ({ old with
                        TEAM := team
                        WEEKLY_SCHEDULE := ws
                        VACATIONS := vac
                        PROMPT_HOUR := ph
                        PROMPT_MINUTE := pm
                        SUMMARY_HOUR := sh
                        SUMMARY_MINUTE := sm }, false)
                | some ls => (⟨team, ws, vac, ph, pm, sh, sm, ls⟩, true)

/-- Splitting a character list at every occurrence of a separator, as
Python `str.split(sep)` for a one-character separator (`"".split(sep)` is
`[""]`). -/
def splitOnChar (sep : Char) : List Char → List (List Char)
  | [] => [[]]
  | c :: cs =>
      let r := splitOnChar sep cs
      if c = sep then [] :: r
      else
        match r with
        | [] => [[c]]
        | first :: rest => (c :: first) :: rest

/-- The decimal value of a non-empty all-digit character list. -/
def parseNatDigits : List Char → Option Nat
  | [] => none
  | cs =>
      if cs.all Char.isDigit then
        some (cs.foldl (fun n c => n * 10 + (c.toNat - 48)) 0)
      else none

/-- Python `int(x)` on the already-whitespace-free command arguments:
optional sign followed by decimal digits, `none` when the call raises. -/
def parseIntStr (cs : List Char) : Option Int :=
  match cs with
  | '-' :: rest => (parseNatDigits rest).map fun n => -(n : Int)
  | '+' :: rest => (parseNatDigits rest).map fun n => (n : Int)
  | _ => (parseNatDigits cs).map fun n => (n : Int)

/-- Python `str.lower()`. -/
def lowerStr (s : String) : String := String.mk (s.data.map Char.toLower)

/-- `canon_name`: first roster entry equal to the raw argument up to case. -/
def canon_name (raw : String) (team : List String) : Option String :=
  team.find? fun t => decide (lowerStr t = lowerStr raw)

/-- `parse_hhmm`: `hh, mm = [int(x) for x in s.split(":")]` plus the range
check; `none` models the `ValueError` the Python function raises. -/
def parse_hhmm (s : String) : Option (Int × Int) :=
  match (splitOnChar ':' s.data).mapM parseIntStr with
  | some [hh, mm] =>
      if 0 ≤ hh ∧ hh ≤ 23 ∧ 0 ≤ mm ∧ mm ≤ 59 then some (hh, mm) else none
  | _ => none

/-- The day-list parse in `cmd_sched_set` —
`[int(x) for x in parts[2].replace(" ", "").split(",") if x]` — together
with its 1..7 check; `none` models the exception the handler catches. -/
def parse_days (s : String) : Option (List Int) :=
  match ((splitOnChar ',' (s.data.filter fun c => decide (c ≠ ' '))).filter
      fun x => decide (x ≠ [])).mapM parseIntStr with
  | none => none
  | some days =>
      if days.any fun dd => decide (dd < 1 ∨ 7 < dd) then none else some days

/-- Outcome of an admin command handler: either an exception escaped the
handler uncaught, or a reply was sent; both carry the persisted
`config.json` document after the command. -/
inductive CmdResult where
  | raised (disk : RawDoc)
  | replied (msg : String) (disk : RawDoc)
deriving DecidableEq

/-- `cmd_vac_add` after argument splitting: the two `_parse_date` calls are
not wrapped in any `try`, so an unparseable date raises out of the
handler. -/
def cmd_vac_add (disk : RawDoc) (rawName : String) (a b : DateStr) :
    CmdResult :=
  match a.parsed with
  | none => .raised disk
  | some _ =>
    match b.parsed with
    | none => .raised disk
    | some _ =>
      match canon_name rawName (disk.TEAM.getD []) with
      | none => .replied (memberNotFoundMsg rawName) disk
      | some name =>
          let vac := disk.VACATIONS.getD []
          let vac2 := upsert vac name (((alookup vac name).getD []) ++ [[a, b]])
          .replied (vacAddOkMsg name a.str b.str)
            { disk with VACATIONS := some vac2 }

/-- `cmd_vac_rm` after argument splitting (no date validation here). -/
def cmd_vac_rm (disk : RawDoc) (rawName : String) (a b : DateStr) :
    CmdResult :=
  match canon_name rawName (disk.TEAM.getD []) with
  | none => .replied (memberNotFoundMsg rawName) disk
  | some name =>
      let vac := disk.VACATIONS.getD []
      let vac2 := upsert vac name
        (((alookup vac name).getD []).filter fun rng => decide (rng ≠ [a, b]))
      .replied (vacRmOkMsg name a.str b.str)
        { disk with VACATIONS := some vac2 }

/-- `cmd_team_add` after argument splitting. -/
def cmd_team_add (disk : RawDoc) (name : String) : CmdResult :=
  let team := disk.TEAM.getD []
  match canon_name name team with
  | some _ => .replied (teamAlreadyMsg name) disk
  | none =>
      let ws := setdefaultA (disk.WEEKLY_SCHEDULE.getD []) name ([] : List Int)
      let vac := setdefaultA (disk.VACATIONS.getD []) name ([] : List VacRange)
      .replied (teamAddOkMsg name)
        { disk with
            TEAM := some (team ++ [name])
            WEEKLY_SCHEDULE := some ws
            VACATIONS := some vac }

/-- `cmd_sched_set` after argument splitting: the day parse and range check
are inside `try` and caught into a reply. -/
def cmd_sched_set (disk : RawDoc) (rawName daysArg : String) : CmdResult :=
  match parse_days daysArg with
  | none => .replied schedRangeMsg disk
  | some days =>
    match canon_name rawName (disk.TEAM.getD []) with
    | none => .replied (memberNotFoundMsg rawName) disk
    | some name =>
        .replied (schedSetOkMsg name days)
          { disk with
              WEEKLY_SCHEDULE :=
                some (upsert (disk.WEEKLY_SCHEDULE.getD []) name days) }

/-- `cmd_time_set` on the whitespace-split message text: the shape check is
replied to, but `parse_hhmm` is called outside any `try`, so an in-shape
but invalid time raises out of the handler. -/
def cmd_time_set (disk : RawDoc) (parts : List String) : CmdResult :=
  match parts with
  | [_, which, timeArg] =>
      if (which = "prompt" ∨ which = "summary") ∧ timeArg.data.contains ':' = true
      then
        match parse_hhmm timeArg with
        | none => .raised disk
        | some (hh, mm) =>
            .replied (timeSetOkMsg which hh mm)
              (if which = "prompt" then
                { disk with PROMPT_HOUR := some hh, PROMPT_MINUTE := some mm }
              else
                { disk with
                    SUMMARY_HOUR := some hh
                    SUMMARY_MINUTE := some mm })
      else .replied timeSetUsageMsg disk
  | _ => .replied timeSetUsageMsg disk

/-! Concrete inputs used by witnesses. -/

def demoWS : Schedule := [("Aya", [1, 3]), ("Bek", [2, 4])]

def demoLedger : Ledger := [("2024-06-03", [("Bek", "ok")])]

/-! Theorems. -/

theorem vacRangeHit_iff (rng : VacRange) (d : Date) :
    vacRangeHit rng d = true ↔
      ∃ r0 r1 s e, rng.get? 0 = some r0 ∧ r0.parsed = some s ∧
        rng.get? 1 = some r1 ∧ r1.parsed = some e ∧ s ≤ d ∧ d ≤ e := by
  unfold vacRangeHit
  cases h0 : rng.get? 0 with
  | none => simp [h0]
  | some r0 =>
    cases hp0 : r0.parsed with
    | none => simp [h0, hp0]
    | some s =>
      cases h1 : rng.get? 1 with
      | none => simp [h0, hp0, h1]
      | some r1 =>
        cases hp1 : r1.parsed with
        | none => simp [h0, hp0, h1, hp1]
        | some e => simp [h0, hp0, h1, hp1]

/-- C3: `is_on_vacation(m, d)` is true iff some vacation range recorded for
`m` has both entries present with well-formed dates and `start ≤ d ≤ end`;
every malformed range contributes no match (and, being a total function,
the check raises nothing). -/
theorem is_on_vacation_iff (vac : VacMap) (name : String) (d : Date) :
    is_on_vacation vac name d = true ↔
      ∃ rng ∈ (alookup vac name).getD [], ∃ r0 r1 s e,
        rng.get? 0 = some r0 ∧ r0.parsed = some s ∧
        rng.get? 1 = some r1 ∧ r1.parsed = some e ∧ s ≤ d ∧ d ≤ e := by
  unfold is_on_vacation
  rw [List.any_eq_true]
  constructor
  · rintro ⟨rng, hmem, hp⟩
    exact ⟨rng, hmem, (vacRangeHit_iff rng d).mp hp⟩
  · rintro ⟨rng, hmem, hcond⟩
    exact ⟨rng, hmem, (vacRangeHit_iff rng d).mpr hcond⟩

/-- C2: for every configuration and date, `get_remote_today` returns
exactly the members whose weekly schedule contains the weekday of `d`
minus those on vacation on `d`. -/
theorem remote_today_spec (ws : Schedule) (vac : VacMap) (d : Date)
    (hnd : (ws.map Prod.fst).Nodup) (m : String) :
    m ∈ get_remote_today ws vac d ↔
      ((∃ days, alookup ws m = some days ∧ weekday d ∈ days) ∧
        is_on_vacation vac m d = false) := by
  unfold get_remote_today
  rw [List.mem_map]
  constructor
  · rintro ⟨⟨k, days⟩, hmem, rfl⟩
    rw [List.mem_filter] at hmem
    obtain ⟨hin, hp⟩ := hmem
    simp only [Bool.and_eq_true, decide_eq_true_iff, Bool.not_eq_true'] at hp
    exact ⟨⟨days, mem_alookup_of_nodup _ _ _ hnd hin, hp.1⟩, hp.2⟩
  · rintro ⟨⟨days, hl, hwd⟩, hvac⟩
    refine ⟨(m, days), List.mem_filter.mpr ⟨alookup_mem _ _ _ hl, ?_⟩, rfl⟩
    simp [hwd, hvac]

/-- C2 witness: the scenario roster `["Aya", "Bek"]`, schedule
`Aya ↦ [1, 3]`, `Bek ↦ [2, 4]`, no vacations, on a Monday gives exactly
`["Aya"]`. -/
theorem remote_today_spec_witness :
    (demoWS.map Prod.fst).Nodup ∧
    (("Aya" ∈ get_remote_today demoWS [] 0) ↔
      ((∃ days, alookup demoWS "Aya" = some days ∧ weekday 0 ∈ days) ∧
        is_on_vacation [] "Aya" 0 = false)) ∧
    get_remote_today demoWS [] 0 = ["Aya"] :=
  ⟨by decide, remote_today_spec demoWS [] 0 (by decide) "Aya", by decide⟩

theorem record_record (L : Ledger) (d m t t2 : String) :
    record (record L d m t) d m t2 = record L d m t2 := by
  unfold record
  rw [alookup_upsert_self]
  simp only [Option.getD_some]
  rw [upsert_upsert, upsert_upsert]

theorem dayMembers_record (L : Ledger) (d m t : String) :
    dayMembers (record L d m t) d =
      if m ∈ dayMembers L d then dayMembers L d else dayMembers L d ++ [m] := by
  unfold dayMembers record
  rw [alookup_upsert_self]
  simp only [Option.getD_some]
  exact keys_upsert _ _ _

theorem mem_dayMembers_foldl (ops : List (String × String × String)) :
    ∀ (L : Ledger) (d m : String),
      m ∈ dayMembers (ops.foldl (fun L o => record L o.1 o.2.1 o.2.2) L) d →
      m ∈ dayMembers L d ∨ ∃ t, (d, m, t) ∈ ops := by
  induction ops with
  | nil => exact fun L d m h => Or.inl h
  | cons o rest ih =>
      obtain ⟨od, om, ot⟩ := o
      intro L d m h
      rw [List.foldl_cons] at h
      rcases ih _ d m h with hL | ⟨t, ht⟩
      · by_cases hd : d = od
        · subst hd
          rw [dayMembers_record] at hL
          by_cases hmem : om ∈ dayMembers L d
          · rw [if_pos hmem] at hL
            exact Or.inl hL
          · rw [if_neg hmem] at hL
            rcases List.mem_append.mp hL with h1 | h2
            · exact Or.inl h1
            · simp only [List.mem_singleton] at h2
              subst h2
              exact Or.inr ⟨ot, List.mem_cons_self _ _⟩
        · unfold dayMembers record at hL
          rw [alookup_upsert_ne _ _ _ _ hd] at hL
          exact Or.inl hL
      · exact Or.inr ⟨t, List.mem_cons_of_mem _ ht⟩

/-- C5: `Record` is idempotent under repeated identical writes and
last-write-wins under differing writes to the same `(date, member)` key,
and a ledger built from a sequence of writes never lists, for any day, a
member without a write that day. -/
theorem record_ledger_props :
    (∀ (L : Ledger) (d m t t2 : String),
      record (record L d m t) d m t = record L d m t ∧
      record (record L d m t) d m t2 = record L d m t2) ∧
    (∀ (ops : List (String × String × String)) (d m : String),
      m ∈ dayMembers (replay ops) d → ∃ t, (d, m, t) ∈ ops) := by
  constructor
  · exact fun L d m t t2 => ⟨record_record L d m t t, record_record L d m t t2⟩
  · intro ops d m h
    rcases mem_dayMembers_foldl ops [] d m h with h0 | he
    · simp [dayMembers, alookup] at h0
    · exact he

/-- C5 witness: last-write-wins on a concrete ledger, and the single-write
ledger on 2024-06-03 lists only a member who wrote that day. -/
theorem record_ledger_props_witness :
    record (record [] "2024-06-03" "Bek" "a") "2024-06-03" "Bek" "b" =
      record [] "2024-06-03" "Bek" "b" ∧
    ("Bek" ∈ dayMembers (replay [("2024-06-03", "Bek", "a")]) "2024-06-03") ∧
    (∃ t, ("2024-06-03", "Bek", t) ∈ [("2024-06-03", "Bek", "a")]) :=
  ⟨(record_ledger_props.1 [] "2024-06-03" "Bek" "a" "b").2,
    by decide,
    record_ledger_props.2 [("2024-06-03", "Bek", "a")] "2024-06-03" "Bek"
      (by decide)⟩

/-- C6: with a configured channel, `job_post_summary` posts exactly one
channel message — the day's `(member, text)` pairs in ledger order when
non-empty, a "no answers" message otherwise — and a ledger write keeps a
member's position at the day's first-submission slot (an overwrite does
not move it, a first write appends at the end). -/
theorem post_summary_spec (answers : Ledger) (today : String) (gid : Int)
    (hgid : gid ≠ 0) :
    job_post_summary answers today gid =
      [if (alookup answers today).getD [] = [] then noAnswersMsg today
       else summaryChannelMsg today ((alookup answers today).getD [])] ∧
    (∀ (L : Ledger) (d m t : String),
      dayMembers (record L d m t) d =
        if m ∈ dayMembers L d then dayMembers L d
        else dayMembers L d ++ [m]) := by
  constructor
  · unfold job_post_summary
    rw [if_pos hgid]
    by_cases h : (alookup answers today).getD [] = []
    · simp [h]
    · simp [h]
  · exact fun L d m t => dayMembers_record L d m t

/-- C6 witness: a concrete one-entry ledger yields exactly the one summary
message, and the ordering fact applied at a concrete overwrite. -/
theorem post_summary_spec_witness :
    job_post_summary demoLedger "2024-06-03" 7 =
      [if (alookup demoLedger "2024-06-03").getD [] = []
       then noAnswersMsg "2024-06-03"
       else summaryChannelMsg "2024-06-03"
         ((alookup demoLedger "2024-06-03").getD [])] ∧
    (∀ (L : Ledger) (d m t : String),
      dayMembers (record L d m t) d =
        if m ∈ dayMembers L d then dayMembers L d
        else dayMembers L d ++ [m]) :=
  post_summary_spec demoLedger "2024-06-03" 7 (by decide)

/-- C7: an inbound private non-command text from an unbound address gets
the register-first reply and leaves the ledger unchanged; from an address
bound to `name` it gets exactly one acknowledgment whose content varies
only by membership in today's remote list, and `Record(today, name, text)`
is executed. -/
theorem private_text_spec (users : List (String × Int)) (chatId : Int)
    (text : String) (ws : Schedule) (vac : VacMap) (d : Date)
    (answers : Ledger) (today : String) :
    (resolveUser users chatId = none →
      handle_private_text users chatId text ws vac d answers today =
        ([registerFirstMsg], answers)) ∧
    (∀ name, resolveUser users chatId = some name →
      handle_private_text users chatId text ws vac d answers today =
        ([if name ∈ get_remote_today ws vac d then ackRemoteMsg
          else ackOfficeMsg],
          record answers today name text.trim)) := by
  constructor
  · intro h
    unfold handle_private_text
    rw [h]
  · intro name h
    unfold handle_private_text
    rw [h]

/-- C7 witness: a bound sender (chat id 42 ↦ Bek) is acknowledged and
recorded; an unbound sender (chat id 7) is asked to register and the
ledger stays empty. -/
theorem private_text_spec_witness :
    handle_private_text [("Bek", 42)] 42 " hi " demoWS [] 0 [] "2024-06-03" =
      ([if "Bek" ∈ get_remote_today demoWS [] 0 then ackRemoteMsg
        else ackOfficeMsg],
        record [] "2024-06-03" "Bek" " hi ".trim) ∧
    handle_private_text [("Bek", 42)] 7 "x" demoWS [] 0 [] "2024-06-03" =
      ([registerFirstMsg], []) :=
  ⟨(private_text_spec [("Bek", 42)] 42 " hi " demoWS [] 0 [] "2024-06-03").2
      "Bek" (by decide),
    (private_text_spec [("Bek", 42)] 7 "x" demoWS [] 0 [] "2024-06-03").1
      (by decide)⟩

/-- C4: `job_send_prompts` computes `active = roster − on vacation`,
`remoteToday = RemoteToday ∩ active`, `nonRemote = active − remoteToday`;
with a configured channel it posts one message naming the members actually
sent a prompt (an empty-list message when none), followed by the
live-scrum message naming `nonRemote` exactly when `nonRemote` is
non-empty; when `remoteToday` is empty no direct message is sent. -/
theorem send_prompts_channel_spec (TEAM : List String) (ws : Schedule)
    (vac : VacMap) (users : List (String × Int)) (d : Date) (gid : Int)
    (liveAt : String) (sh sm : Int) (sendOk : Int → Bool) (hgid : gid ≠ 0) :
    (∀ m, m ∈ active_team TEAM vac d ↔
      m ∈ TEAM ∧ is_on_vacation vac m d = false) ∧
    (∀ m, m ∈ remote_today_list TEAM ws vac d ↔
      m ∈ get_remote_today ws vac d ∧ m ∈ active_team TEAM vac d) ∧
    (∀ m, m ∈ non_remote_list TEAM ws vac d ↔
      m ∈ active_team TEAM vac d ∧ m ∉ remote_today_list TEAM ws vac d) ∧
    (job_send_prompts TEAM ws vac users d gid liveAt sh sm sendOk).2 =
      (if (promptLoop users sendOk (make_scrum_prompt sh sm)
            (remote_today_list TEAM ws vac d)).2 ≠ [] then
        sentChannelMsg (promptLoop users sendOk (make_scrum_prompt sh sm)
          (remote_today_list TEAM ws vac d)).2
       else emptyChannelMsg) ::
        (if non_remote_list TEAM ws vac d ≠ [] then
          [liveChannelMsg liveAt (non_remote_list TEAM ws vac d)]
         else []) ∧
    (remote_today_list TEAM ws vac d = [] →
      (job_send_prompts TEAM ws vac users d gid liveAt sh sm sendOk).1 = []) := by
  refine ⟨?_, ?_, ?_, ?_, ?_⟩
  · intro m
    simp [active_team, List.mem_filter]
  · intro m
    simp [remote_today_list, List.mem_filter]
  · intro m
    simp [non_remote_list, List.mem_filter]
  · simp only [job_send_prompts]
    rw [if_pos hgid]
  · intro h
    simp only [job_send_prompts]
    rw [h]
    rfl

/-- C4 witness: the `remoteToday = ∅` scenario (empty schedule) posts
exactly one empty-list channel message and sends no direct messages. -/
theorem send_prompts_channel_spec_witness :
    (job_send_prompts ["Aya"] [] [] [("Aya", 5)] 0 77 "11:00" 17 30
        (fun _ => true)).2 =
      (if (promptLoop [("Aya", 5)] (fun _ => true)
            (make_scrum_prompt 17 30) (remote_today_list ["Aya"] [] [] 0)).2
          ≠ [] then
        sentChannelMsg (promptLoop [("Aya", 5)] (fun _ => true)
          (make_scrum_prompt 17 30) (remote_today_list ["Aya"] [] [] 0)).2
       else emptyChannelMsg) ::
        (if non_remote_list ["Aya"] [] [] 0 ≠ [] then
          [liveChannelMsg "11:00" (non_remote_list ["Aya"] [] [] 0)]
         else []) ∧
    (job_send_prompts ["Aya"] [] [] [("Aya", 5)] 0 77 "11:00" 17 30
        (fun _ => true)).1 = [] ∧
    remote_today_list ["Aya"] [] [] 0 = [] :=
  ⟨(send_prompts_channel_spec ["Aya"] [] [] [("Aya", 5)] 0 77 "11:00" 17 30
      (fun _ => true) (by decide)).2.2.2.1,
    (send_prompts_channel_spec ["Aya"] [] [] [("Aya", 5)] 0 77 "11:00" 17 30
      (fun _ => true) (by decide)).2.2.2.2 (by decide),
    by decide⟩

/-- C10: with the channel sentinel 0, `job_send_prompts` posts no channel
message while its direct messages are the same as with any configured
channel, and `job_post_summary` sends nothing at all. -/
theorem unset_channel_spec (TEAM : List String) (ws : Schedule) (vac : VacMap)
    (users : List (String × Int)) (d : Date) (liveAt : String) (sh sm : Int)
    (sendOk : Int → Bool) (gid : Int) (answers : Ledger) (today : String) :
    (job_send_prompts TEAM ws vac users d 0 liveAt sh sm sendOk).2 = [] ∧
    (job_send_prompts TEAM ws vac users d 0 liveAt sh sm sendOk).1 =
      (job_send_prompts TEAM ws vac users d gid liveAt sh sm sendOk).1 ∧
    job_post_summary answers today 0 = [] := by
  refine ⟨?_, ?_, ?_⟩
  · simp [job_send_prompts]
  · simp [job_send_prompts]
  · simp [job_post_summary]

def oldCfg : ConfigState := ⟨["Old"], [], [], 9, 0, 17, 30, "11:00"⟩

def partialDoc : RawDoc :=
  ⟨some ["New"], some [], none, none, none, some 0, some 17, some 30,
    some "11:00"⟩

def fullDoc : RawDoc :=
  ⟨some ["New"], some [], none, none, some 8, some 30, some 18, some 0,
    some "10:00"⟩

def fullCfg : ConfigState := ⟨["New"], [], [], 8, 30, 18, 0, "10:00"⟩

/-- C1 counterexample: reloading a document that has `TEAM` and
`WEEKLY_SCHEDULE` but is missing `PROMPT_HOUR` surfaces an error, yet the
in-memory configuration does not remain intact: the roster is already
swapped to the new document while the trigger times keep the old values. -/
theorem reload_partial_counterexample :
    (cmd_cfg_reload oldCfg (some partialDoc)).2 = false ∧
    (cmd_cfg_reload oldCfg (some partialDoc)).1 ≠ oldCfg ∧
    (cmd_cfg_reload oldCfg (some partialDoc)).1.TEAM = ["New"] ∧
    (cmd_cfg_reload oldCfg (some partialDoc)).1.PROMPT_HOUR =
      oldCfg.PROMPT_HOUR := by
  decide

/-- C1 (amended): reload is all-or-nothing when the document fails to load
or parse — the previous configuration stays fully active and the error is
surfaced; when every required key is present the whole new aggregate is
swapped in; when the document loads but some required key is missing the
error is still surfaced to the admin (though keys assigned before the
failing one may have been updated). -/
theorem reload_spec (old : ConfigState) (loaded : Option RawDoc) :
    (loaded = none → cmd_cfg_reload old loaded = (old, false)) ∧
    (∀ doc, loaded = some doc → configOf doc = none →
      (cmd_cfg_reload old loaded).2 = false) ∧
    (∀ doc st, loaded = some doc → configOf doc = some st →
      cmd_cfg_reload old loaded = (st, true)) := by
  refine ⟨?_, ?_, ?_⟩
  · rintro rfl
    rfl
  · rintro doc rfl hcfg
    obtain ⟨t, w, vi, va, ph, pm, sh, sm, ls⟩ := doc
    cases t <;> cases w <;> cases ph <;> cases pm <;> cases sh <;>
      cases sm <;> cases ls <;> simp_all [cmd_cfg_reload, configOf]
  · rintro doc st rfl hcfg
    obtain ⟨t, w, vi, va, ph, pm, sh, sm, ls⟩ := doc
    cases t <;> cases w <;> cases ph <;> cases pm <;> cases sh <;>
      cases sm <;> cases ls <;> simp_all [cmd_cfg_reload, configOf]

/-- C1 witness: a failed load keeps the old configuration, a document with
a missing key surfaces an error, a complete document swaps in whole. -/
theorem reload_spec_witness :
    cmd_cfg_reload oldCfg none = (oldCfg, false) ∧
    (cmd_cfg_reload oldCfg (some partialDoc)).2 = false ∧
    cmd_cfg_reload oldCfg (some fullDoc) = (fullCfg, true) :=
  ⟨(reload_spec oldCfg none).1 rfl,
    (reload_spec oldCfg (some partialDoc)).2.1 partialDoc rfl (by decide),
    (reload_spec oldCfg (some fullDoc)).2.2 fullDoc fullCfg rfl (by decide)⟩

def plainDoc : RawDoc :=
  ⟨some ["Aya"], some [], none, some [], some 9, some 0, some 17, some 30,
    some "11:00"⟩

/-- C8 counterexample: an in-range-shaped but invalid time
(`/time_set prompt 25:00`) and an unparseable `vac_add` date make the
handlers raise an uncaught exception instead of replying with a
user-visible message (the persisted document is indeed unchanged). -/
theorem validation_uncaught_counterexample :
    cmd_time_set plainDoc ["/time_set", "prompt", "25:00"] =
      CmdResult.raised plainDoc ∧
    cmd_vac_add plainDoc "Aya" ⟨"2024-99-99", none⟩ ⟨"2024-05-10", some 109⟩ =
      CmdResult.raised plainDoc := by
  decide

/-- C8 (amended): an invalid weekday set for `sched_set` is caught and
turned into a user-visible reply; an unparseable `vac_add` date and an
invalid (colon-containing) `time_set` time raise out of the handler with
no reply; in every such case the persisted document is left unchanged. -/
theorem validation_spec (disk : RawDoc)
    (rawName daysArg c which timeArg : String) (a b : DateStr) :
    (parse_days daysArg = none →
      cmd_sched_set disk rawName daysArg =
        CmdResult.replied schedRangeMsg disk) ∧
    (a.parsed = none ∨ b.parsed = none →
      cmd_vac_add disk rawName a b = CmdResult.raised disk) ∧
    ((which = "prompt" ∨ which = "summary") →
      timeArg.data.contains ':' = true →
      parse_hhmm timeArg = none →
      cmd_time_set disk [c, which, timeArg] = CmdResult.raised disk) := by
  refine ⟨?_, ?_, ?_⟩
  · intro h
    unfold cmd_sched_set
    rw [h]
  · intro h
    rcases h with ha | hb
    · simp [cmd_vac_add, ha]
    · cases hap : a.parsed with
      | none => simp [cmd_vac_add, hap]
      | some s => simp [cmd_vac_add, hap, hb]
  · intro hw hc hp
    have hcond : (which = "prompt" ∨ which = "summary") ∧
        timeArg.data.contains ':' = true := ⟨hw, hc⟩
    simp only [cmd_time_set]
    rw [if_pos hcond, hp]

/-- C8 witness: the three failure modes at concrete inputs — out-of-range
weekday replied, bad date raised, out-of-range time raised. -/
theorem validation_spec_witness :
    cmd_sched_set plainDoc "Aya" "0,3" =
      CmdResult.replied schedRangeMsg plainDoc ∧
    cmd_vac_add plainDoc "Aya" ⟨"bad-date", none⟩ ⟨"2024-05-10", some 109⟩ =
      CmdResult.raised plainDoc ∧
    cmd_time_set plainDoc ["/time_set", "summary", "10:99"] =
      CmdResult.raised plainDoc :=
  ⟨(validation_spec plainDoc "Aya" "0,3" "/time_set" "summary" "10:99"
      ⟨"bad-date", none⟩ ⟨"2024-05-10", some 109⟩).1 (by decide),
    (validation_spec plainDoc "Aya" "0,3" "/time_set" "summary" "10:99"
      ⟨"bad-date", none⟩ ⟨"2024-05-10", some 109⟩).2.1 (Or.inl rfl),
    (validation_spec plainDoc "Aya" "0,3" "/time_set" "summary" "10:99"
      ⟨"bad-date", none⟩ ⟨"2024-05-10", some 109⟩).2.2 (Or.inr rfl)
      (by decide) (by decide)⟩

/-- The document carried by a command outcome, whether it raised or
replied. -/
def resultDisk : CmdResult → RawDoc
  | .raised disk => disk
  | .replied _ disk => disk

theorem loadVacations_eq (doc : RawDoc) (v : VacMap)
    (h : doc.VACITIONS = some v) : loadVacations doc = v := by
  unfold loadVacations
  rw [h]

theorem configOf_vacations (doc : RawDoc) (st : ConfigState)
    (h : configOf doc = some st) : st.VACATIONS = loadVacations doc := by
  obtain ⟨t, w, vi, va, ph, pm, sh, sm, ls⟩ := doc
  cases t <;> cases w <;> cases ph <;> cases pm <;> cases sh <;>
    cases sm <;> cases ls <;>
    ((try simp_all [configOf]); (try subst st); (try rfl))

theorem reload_success_vacations (old : ConfigState) (doc : RawDoc)
    (st : ConfigState) (h : cmd_cfg_reload old (some doc) = (st, true)) :
    st.VACATIONS = loadVacations doc := by
  obtain ⟨t, w, vi, va, ph, pm, sh, sm, ls⟩ := doc
  cases t <;> cases w <;> cases ph <;> cases pm <;> cases sh <;>
    cases sm <;> cases ls <;>
    ((try simp_all [cmd_cfg_reload]); (try subst st); (try rfl))

theorem vac_add_vacitions (disk : RawDoc) (rawName : String) (a b : DateStr) :
    (resultDisk (cmd_vac_add disk rawName a b)).VACITIONS = disk.VACITIONS := by
  cases hap : a.parsed with
  | none => simp [cmd_vac_add, hap, resultDisk]
  | some s =>
    cases hbp : b.parsed with
    | none => simp [cmd_vac_add, hap, hbp, resultDisk]
    | some e =>
      cases hc : canon_name rawName (disk.TEAM.getD []) with
      | none => simp [cmd_vac_add, hap, hbp, hc, resultDisk]
      | some name => simp [cmd_vac_add, hap, hbp, hc, resultDisk]

theorem vac_rm_vacitions (disk : RawDoc) (rawName : String) (a b : DateStr) :
    (resultDisk (cmd_vac_rm disk rawName a b)).VACITIONS = disk.VACITIONS := by
  cases hc : canon_name rawName (disk.TEAM.getD []) with
  | none => simp [cmd_vac_rm, hc, resultDisk]
  | some name => simp [cmd_vac_rm, hc, resultDisk]

theorem team_add_vacitions (disk : RawDoc) (name : String) :
    (resultDisk (cmd_team_add disk name)).VACITIONS = disk.VACITIONS := by
  cases hc : canon_name name (disk.TEAM.getD []) with
  | none => simp [cmd_team_add, hc, resultDisk]
  | some c => simp [cmd_team_add, hc, resultDisk]

/-- C9: when the document has the key `VACITIONS`, that key feeds the
in-memory vacation map at startup load and on every reload while the
`VACATIONS` key is ignored; all admin vacation mutations (`vac_add`,
`vac_rm`, `team_add`) leave `VACITIONS` untouched, so an admin-added
vacation range never affects `is_on_vacation`, even after a successful
reload. -/
theorem vacitions_shadow_spec (disk : RawDoc) (v : VacMap) (rawName : String)
    (a b : DateStr) (hv : disk.VACITIONS = some v) :
    loadVacations disk = v ∧
    (∀ st, configOf disk = some st → st.VACATIONS = v) ∧
    (∀ old st, cmd_cfg_reload old (some disk) = (st, true) →
      st.VACATIONS = v) ∧
    (resultDisk (cmd_vac_add disk rawName a b)).VACITIONS = some v ∧
    (resultDisk (cmd_vac_rm disk rawName a b)).VACITIONS = some v ∧
    (resultDisk (cmd_team_add disk rawName)).VACITIONS = some v ∧
    (∀ old st, cmd_cfg_reload old
        (some (resultDisk (cmd_vac_add disk rawName a b))) = (st, true) →
      ∀ m dd, is_on_vacation st.VACATIONS m dd = is_on_vacation v m dd) := by
  have h1 := loadVacations_eq disk v hv
  refine ⟨h1, ?_, ?_, ?_, ?_, ?_, ?_⟩
  · intro st h
    rw [configOf_vacations disk st h, h1]
  · intro old st h
    rw [reload_success_vacations old disk st h, h1]
  · rw [vac_add_vacitions, hv]
  · rw [vac_rm_vacitions, hv]
  · rw [team_add_vacitions, hv]
  · intro old st h m dd
    have h2 : (resultDisk (cmd_vac_add disk rawName a b)).VACITIONS = some v := by
      rw [vac_add_vacitions, hv]
    rw [reload_success_vacations old _ st h, loadVacations_eq _ v h2]

def shadowDisk : RawDoc :=
  ⟨some ["Aya"], some [], some [("Aya", [])], some [], some 9, some 0,
    some 17, some 30, some "11:00"⟩

def dsA : DateStr := ⟨"2024-05-01", some 100⟩

def dsB : DateStr := ⟨"2024-05-10", some 109⟩

/-- C9 witness: on a document with `VACITIONS`, an admin `vac_add` lands in
`VACATIONS` only, and after a successful reload the member is still not on
vacation inside the added range. -/
theorem vacitions_shadow_spec_witness :
    loadVacations shadowDisk = [("Aya", [])] ∧
    (resultDisk (cmd_vac_add shadowDisk "Aya" dsA dsB)).VACITIONS =
      some [("Aya", [])] ∧
    (resultDisk (cmd_vac_add shadowDisk "Aya" dsA dsB)).VACATIONS =
      some [("Aya", [[dsA, dsB]])] ∧
    (cmd_cfg_reload oldCfg
      (some (resultDisk (cmd_vac_add shadowDisk "Aya" dsA dsB)))).2 = true ∧
    is_on_vacation
      (cmd_cfg_reload oldCfg
        (some (resultDisk (cmd_vac_add shadowDisk "Aya" dsA dsB)))).1.VACATIONS
      "Aya" 105 = false :=
  ⟨(vacitions_shadow_spec shadowDisk [("Aya", [])] "Aya" dsA dsB rfl).1,
    (vacitions_shadow_spec shadowDisk [("Aya", [])] "Aya" dsA dsB rfl).2.2.2.1,
    by decide, by decide, by decide⟩

end ScrumBot
